import Mathlib

/-!
Shallow embedding of the ThermoPro finite-element thermal engine
(`src/unnamed/part_002`: mesh generation, conduction solver, diagnostics).

Modelling conventions, used throughout:
* JavaScript numbers are modelled as `ℚ` (exact rational arithmetic).
  Where JavaScript produces `NaN` or `±Infinity` (division by a zero or
  missing quantity), the `ℚ` model yields `0` (`x / 0 = 0` in Lean); each
  such spot is noted at its definition.  No claim below depends on the
  value produced at such a degenerate spot, only on the fact that the code
  keeps running and returns a result.
* `Math.sqrt(d) < t` comparisons (junction detection, refinement spacing)
  are embedded as `d < t^2`, which is equivalent for `t ≥ 0` in exact real
  semantics; the source only uses `t > 0` there.
* The `±Infinity` initialisation of the bounding-box scan is modelled by
  an `Option`: `none` when the input has no points, in which case the
  source's `for` loops run zero times (their bounds are `-Infinity`).
* The sparse matrix object keyed by `"i-j"` strings is an association
  list keyed by `(i, j)`; `delete` removes the key, accumulation keeps a
  single entry per key.  The JS truthiness test `if (K[key])` before the
  off-diagonal subtraction skips entries that are `0` or missing, which is
  the same as multiplying the defaulted value `0`.
-/

set_option allowUnsafeReducibility true

attribute [semireducible] Rat.add Rat.sub Rat.mul Rat.div Rat.inv Rat.neg

/-- Surface heat-transfer coefficient of the interior side, `7.7 W/m²K`
(part_002 line 4). -/
def INTERIOR_HEAT_TRANSFER_COEFFICIENT : ℚ := 77 / 10

/-- Surface heat-transfer coefficient of the exterior side, `25.0 W/m²K`
(part_002 line 5). -/
def EXTERIOR_HEAT_TRANSFER_COEFFICIENT : ℚ := 25

/-- A 2-D point (types file `Point`). -/
structure Point where
  x : ℚ
  y : ℚ
  deriving DecidableEq, Repr

/-- Material data (types file `MaterialProperties`). -/
structure MaterialProperties where
  name : String
  thermalConductivity : ℚ
  defaultThickness : ℚ
  color : String
  deriving DecidableEq, Repr

/-- The kinds a `DrawingElement` can have (types file, field `type`). -/
inductive ElementKind where
  | line | rectangle | circle | wall | insulation | dimension | text
  deriving DecidableEq, Repr

/-- A drawing element, restricted to the fields the engine reads:
its kind, its point list, and `properties.material` (types file
`DrawingElement`; the engine never reads `layerId`, `style`, …). -/
structure DrawingElement where
  id : String
  kind : ElementKind
  points : List Point
  material : Option MaterialProperties
  deriving DecidableEq, Repr

/-- Boundary classification of a mesh node (part_002 line 15). -/
inductive BoundaryType where
  | interior | exterior | adiabatic
  deriving DecidableEq, Repr

/-- A mesh node (part_002 `MeshNode`, lines 8-16). -/
structure MeshNode where
  id : ℕ
  x : ℚ
  y : ℚ
  temperature : ℚ
  fixed : Bool
  isBoundary : Bool
  boundaryType : Option BoundaryType
  deriving DecidableEq, Repr

/-- A triangular mesh element (part_002 `MeshElement`, lines 18-22);
`nodes` are the indices of the triangle's three nodes. -/
structure MeshElement where
  id : ℕ
  nodes : ℕ × ℕ × ℕ
  material : MaterialProperties
  deriving DecidableEq, Repr

/-- A mesh (part_002 `Mesh`, lines 24-27). -/
structure Mesh where
  nodes : List MeshNode
  elements : List MeshElement
  deriving DecidableEq, Repr

/-- One per-element flux record (part_002 lines 499-503).  The source
stores `magnitude = Math.sqrt(qx² + qy²)`; the square root leaves `ℚ`,
so the model carries the square.  Nothing in the engine reads the value
back, it is output only. -/
structure FluxValue where
  x : ℚ
  y : ℚ
  magnitudeSq : ℚ
  deriving DecidableEq, Repr

/-- The result record of a simulation (part_002 `ThermalSimulationResult`,
lines 30-39).  Note for C8: the source record has exactly these eight
fields; there is no `converged` flag. -/
structure ThermalSimulationResult where
  nodes : List MeshNode
  elements : List MeshElement
  minTemperature : ℚ
  maxTemperature : ℚ
  isotherms : List ℚ
  psiValue : ℚ
  fRsiValue : ℚ
  fluxValues : List FluxValue
  deriving DecidableEq, Repr

/-- Default node used for out-of-range list indexing (`getD`).  The JS
source indexes arrays directly; all in-range uses are proved in range. -/
def nodeDefault : MeshNode :=
  { id := 0, x := 0, y := 0, temperature := 0, fixed := false,
    isBoundary := false, boundaryType := none }

/-- The built-in Air material (part_002 lines 188-193). -/
def airMaterial : MaterialProperties :=
  { name := "Air", thermalConductivity := 1 / 40, defaultThickness := 0,
    color := "#FFFFFF" }

/-- All points of all drawing elements, in traversal order
(part_002 lines 56-63). -/
def allPoints (els : List DrawingElement) : List Point :=
  els.foldl (fun acc e => acc ++ e.points) []

/-- Raw bounding box `(minX, minY, maxX, maxY)` of the drawing
(part_002 lines 54-63).  JS initialises the scan with `±Infinity`;
`none` models the case of no points at all, where the scan leaves the
infinities in place and every later loop bound is `-Infinity`, so the
loops run zero times. -/
structure Bounds where
  minX : ℚ
  minY : ℚ
  maxX : ℚ
  maxY : ℚ
  deriving DecidableEq, Repr

/-- Bounding box of the input, `none` when there are no points. -/
def boundsOf (els : List DrawingElement) : Option Bounds :=
  match allPoints els with
  | [] => none
  | p :: ps =>
      some { minX := ps.foldl (fun m q => min m q.x) p.x,
             minY := ps.foldl (fun m q => min m q.y) p.y,
             maxX := ps.foldl (fun m q => max m q.x) p.x,
             maxY := ps.foldl (fun m q => max m q.y) p.y }

/-- Domain expansion by `margin = 5 × meshSize` on every side
(part_002 lines 65-70). -/
def expandBounds (b : Bounds) (meshSize : ℚ) : Bounds :=
  { minX := b.minX - meshSize * 5, minY := b.minY - meshSize * 5,
    maxX := b.maxX + meshSize * 5, maxY := b.maxY + meshSize * 5 }

/-- Grid node `(i, j)` of the structured grid (part_002 lines 82-120):
position, boundary classification by the four `< 0.001` edge tests, the
Dirichlet flag and the initial temperature.  `eb` is the expanded domain,
`nx`/`ny` the grid dimensions; the node id is the running counter
`j * nx + i`. -/
def mkGridNode (eb : Bounds) (nx ny : ℕ) (interiorTemp exteriorTemp : ℚ)
    (i j : ℕ) : MeshNode :=
  let width := eb.maxX - eb.minX
  let height := eb.maxY - eb.minY
  let x := eb.minX + (i : ℚ) * (width / ((nx : ℚ) - 1))
  let y := eb.minY + (j : ℚ) * (height / ((ny : ℚ) - 1))
  let isLeft := |x - eb.minX| < 1 / 1000
  let isRight := |x - eb.maxX| < 1 / 1000
  let isBottom := |y - eb.minY| < 1 / 1000
  let isTop := |y - eb.maxY| < 1 / 1000
  let isBoundary : Bool := decide isLeft || decide isRight ||
    decide isBottom || decide isTop
  if isLeft then
    { id := j * nx + i, x := x, y := y, temperature := exteriorTemp,
      fixed := true, isBoundary := isBoundary,
      boundaryType := some BoundaryType.exterior }
  else if isRight then
    { id := j * nx + i, x := x, y := y, temperature := interiorTemp,
      fixed := true, isBoundary := isBoundary,
      boundaryType := some BoundaryType.interior }
  else if isTop ∨ isBottom then
    { id := j * nx + i, x := x, y := y, temperature := 0,
      fixed := false, isBoundary := isBoundary,
      boundaryType := some BoundaryType.adiabatic }
  else
    { id := j * nx + i, x := x, y := y, temperature := 0,
      fixed := false, isBoundary := isBoundary, boundaryType := none }

/-- The structured grid of `nx × ny` nodes over the expanded domain, row
by row (part_002 lines 72-121): the node list of `generateMesh` before
junction refinement appends anything. -/
def gridFromBounds (eb : Bounds) (meshSize interiorTemp exteriorTemp : ℚ) :
    List MeshNode :=
  let nx := (Rat.ceil ((eb.maxX - eb.minX) / meshSize)).toNat + 1
  let ny := (Rat.ceil ((eb.maxY - eb.minY) / meshSize)).toNat + 1
  (List.range ny).flatMap fun j =>
    (List.range nx).map fun i => mkGridNode eb nx ny interiorTemp exteriorTemp i j

/-- Junction detection (part_002 `findJunctions`, lines 214-245): corner
points of two distinct elements closer than `0.5`, deduplicated by the
same tolerance, in the source's pair iteration order.  `sqrt d < 0.5` is
embedded as `d < (1/2)^2`. -/
def orderedPairs {α : Type} : List α → List (α × α)
  | [] => []
  | a :: rest => rest.map (fun b => (a, b)) ++ orderedPairs rest

/-- Squared distance of two points below a squared tolerance. -/
def distSqLt (p q : Point) (tol : ℚ) : Bool :=
  decide ((p.x - q.x) ^ 2 + (p.y - q.y) ^ 2 < tol ^ 2)

/-- Junctions between drawing elements (part_002 lines 214-245). -/
def findJunctions (elements : List DrawingElement) : List Point :=
  (orderedPairs elements).foldl
    (fun junctions pair =>
      pair.1.points.foldl
        (fun junctions point1 =>
          pair.2.points.foldl
            (fun junctions point2 =>
              if distSqLt point1 point2 (1 / 2) then
                if junctions.any (fun j => distSqLt j point1 (1 / 2)) then
                  junctions
                else junctions ++ [point1]
              else junctions)
            junctions)
        junctions)
    []

/-- One refinement candidate around a junction (part_002 lines 139-162):
a node at `junction - radius + (i, j) · refSize` is appended when it lies
in the (expanded) domain and no existing node is within `refSize / 2`
(squared comparison, see the header note); its id is the running counter,
which equals the current node-list length.  It is always appended with
`fixed = false`, `isBoundary = false` and no boundary type. -/
def refineCandidate (eb : Bounds) (refRadius refSize : ℚ) (junction : Point)
    (ns : List MeshNode) (ij : ℕ × ℕ) : List MeshNode :=
  let x := junction.x - refRadius + (ij.1 : ℚ) * refSize
  let y := junction.y - refRadius + (ij.2 : ℚ) * refSize
  if eb.minX ≤ x ∧ x ≤ eb.maxX ∧ eb.minY ≤ y ∧ y ≤ eb.maxY then
    if ns.any (fun node => decide ((node.x - x) ^ 2 + (node.y - y) ^ 2 <
        (refSize / 2) ^ 2)) then
      ns
    else
      ns ++ [{ id := ns.length, x := x, y := y, temperature := 0,
               fixed := false, isBoundary := false, boundaryType := none }]
  else ns

/-- All refinement candidates of one junction, `j` outer and `i` inner,
both ranging over `0 .. refinementN` inclusive (part_002 lines 127-164).
For `adaptiveFactor ≤ 0` the JS loop bound is infinite (degenerate,
outside every claim's scope); the model then visits index `0` only. -/
def addRefinedNodes (eb : Bounds) (refRadius refSize : ℚ) (junction : Point)
    (ns : List MeshNode) : List MeshNode :=
  let refinementNx := (Rat.ceil (2 * refRadius / refSize)).toNat
  let refinementNy := (Rat.ceil (2 * refRadius / refSize)).toNat
  ((List.range (refinementNy + 1)).flatMap fun j =>
    (List.range (refinementNx + 1)).map fun i => (i, j)).foldl
    (refineCandidate eb refRadius refSize junction) ns

/-- Adaptive refinement pass: every junction in order, appending to the
node list (part_002 lines 123-164). -/
def refineNodes (eb : Bounds) (refRadius refSize : ℚ)
    (junctions : List Point) (ns : List MeshNode) : List MeshNode :=
  junctions.foldl (fun ns junction => addRefinedNodes eb refRadius refSize junction ns) ns

/-- Material at a point: the first `rectangle` element with a material
whose first two corner points bound the point (part_002
`findMaterialAtPoint`, lines 248-265).  The source destructures
`[p1, p2] = element.points`; an element with fewer than two points would
crash the JS on `p2.x`, rectangles always carry their two corners. -/
def findMaterialAtPoint : List DrawingElement → Point → Option MaterialProperties
  | [], _ => none
  | e :: rest, p =>
      match e.kind, e.material, e.points with
      | ElementKind.rectangle, some m, p1 :: p2 :: _ =>
          if min p1.x p2.x ≤ p.x ∧ p.x ≤ max p1.x p2.x ∧
             min p1.y p2.y ≤ p.y ∧ p.y ≤ max p1.y p2.y then
            some m
          else findMaterialAtPoint rest p
      | _, _, _ => findMaterialAtPoint rest p

/-- The two triangles of grid cell `(i, j)` (part_002 lines 175-207):
corner indices into the structured grid, the cell-centre material lookup
(defaulting to Air), and the running element ids. -/
def cellElements (els : List DrawingElement) (allNodes : List MeshNode)
    (nx : ℕ) (ij : ℕ × ℕ) : List MeshElement :=
  let i := ij.1
  let j := ij.2
  let bottomLeft := j * nx + i
  let bottomRight := j * nx + i + 1
  let topLeft := (j + 1) * nx + i
  let topRight := (j + 1) * nx + i + 1
  let nBL := allNodes.getD bottomLeft nodeDefault
  let nTR := allNodes.getD topRight nodeDefault
  let centerX := (nBL.x + nTR.x) / 2
  let centerY := (nBL.y + nTR.y) / 2
  let material := (findMaterialAtPoint els { x := centerX, y := centerY }).getD airMaterial
  let eid := 2 * (j * (nx - 1) + i)
  [{ id := eid, nodes := (bottomLeft, bottomRight, topRight), material := material },
   { id := eid + 1, nodes := (bottomLeft, topRight, topLeft), material := material }]

/-- All elements of the structured grid, cell by cell in row-major order
(part_002 lines 170-208). -/
def elementsFromBounds (els : List DrawingElement) (allNodes : List MeshNode)
    (nx ny : ℕ) : List MeshElement :=
  (List.range (ny - 1)).flatMap fun j =>
    (List.range (nx - 1)).flatMap fun i => cellElements els allNodes nx (i, j)

/-- Mesh generation (part_002 `generateMesh`, lines 42-211).  When the
input has no points the JS loop bounds are `-Infinity` and every loop
runs zero times, so the empty mesh is returned (the `none` branch). -/
def generateMesh (drawingElements : List DrawingElement) (meshSize : ℚ)
    (adaptiveFactor : ℚ) (interiorTemp exteriorTemp : ℚ) : Mesh :=
  match boundsOf drawingElements with
  | none => { nodes := [], elements := [] }
  | some b =>
      let eb := expandBounds b meshSize
      let nx := (Rat.ceil ((eb.maxX - eb.minX) / meshSize)).toNat + 1
      let ny := (Rat.ceil ((eb.maxY - eb.minY) / meshSize)).toNat + 1
      let grid := gridFromBounds eb meshSize interiorTemp exteriorTemp
      let ns := refineNodes eb (meshSize * 5) (meshSize * adaptiveFactor)
        (findJunctions drawingElements) grid
      { nodes := ns, elements := elementsFromBounds drawingElements ns nx ny }

/-- The structured-grid node list of `generateMesh`, i.e. the node list
before junction-refinement insertion (part_002 lines 72-121). -/
def gridOf (els : List DrawingElement) (meshSize interiorTemp exteriorTemp : ℚ) :
    List MeshNode :=
  match boundsOf els with
  | none => []
  | some b => gridFromBounds (expandBounds b meshSize) meshSize interiorTemp exteriorTemp

/-- The grid column count `nx` of `generateMesh` (part_002 line 77);
`0` when the input has no points (the JS value is `-Infinity` there and
the loops run zero times). -/
def meshNx (els : List DrawingElement) (meshSize : ℚ) : ℕ :=
  match boundsOf els with
  | none => 0
  | some b =>
      let eb := expandBounds b meshSize
      (Rat.ceil ((eb.maxX - eb.minX) / meshSize)).toNat + 1

/-- The grid row count `ny` of `generateMesh` (part_002 line 78). -/
def meshNy (els : List DrawingElement) (meshSize : ℚ) : ℕ :=
  match boundsOf els with
  | none => 0
  | some b =>
      let eb := expandBounds b meshSize
      (Rat.ceil ((eb.maxY - eb.minY) / meshSize)).toNat + 1

/-- The global sparse conductance matrix: the JS object keyed by
`"i-j"` strings, as an association list keyed by `(i, j)` with one entry
per key (part_002 lines 272-273, 411-420). -/
abbrev SparseK : Type := List ((ℕ × ℕ) × ℚ)

/-- The empty sparse matrix. -/
def emptyK : SparseK := []

/-- Key lookup: `none` models a missing key. -/
def lookupK (K : SparseK) (i j : ℕ) : Option ℚ :=
  (K.find? (fun e => decide (e.1.1 = i) && decide (e.1.2 = j))).map (fun e => e.2)

/-- `addToSparseMatrix` (part_002 lines 412-415):
`matrix[key] = (matrix[key] || 0) + value`. -/
def addToSparseMatrix (K : SparseK) (i j : ℕ) (v : ℚ) : SparseK :=
  if (K.find? (fun e => decide (e.1.1 = i) && decide (e.1.2 = j))).isSome then
    K.map (fun e => if e.1.1 = i ∧ e.1.2 = j then (e.1, e.2 + v) else e)
  else
    K ++ [((i, j), v)]

/-- `deleteFromSparseMatrix` (part_002 lines 417-420): `delete matrix[key]`. -/
def deleteFromSparseMatrix (K : SparseK) (i j : ℕ) : SparseK :=
  K.filter (fun e => !(decide (e.1.1 = i) && decide (e.1.2 = j)))

/-- Assembly of one triangular element into the global matrix
(part_002 lines 279-315): triangle area by the shoelace formula,
shape-function gradient coefficients, the nine accumulations in source
order.  For a degenerate zero-area triangle JS divides by zero
(`Infinity`); the `ℚ` model yields factor `0` there (outside every
claim's scope). -/
def assembleElement (nodesArr : List MeshNode) (K : SparseK)
    (el : MeshElement) : SparseK :=
  let i := el.nodes.1
  let j := el.nodes.2.1
  let k := el.nodes.2.2
  let ni := nodesArr.getD i nodeDefault
  let nj := nodesArr.getD j nodeDefault
  let nk := nodesArr.getD k nodeDefault
  let area := (1 / 2) * |(nj.x - ni.x) * (nk.y - ni.y) - (nk.x - ni.x) * (nj.y - ni.y)|
  let conductivity := el.material.thermalConductivity
  let bi := nj.y - nk.y
  let bj := nk.y - ni.y
  let bk := ni.y - nj.y
  let ci := nk.x - nj.x
  let cj := ni.x - nk.x
  let ck := nj.x - ni.x
  let factor := conductivity / (4 * area)
  let K := addToSparseMatrix K i i (factor * (bi * bi + ci * ci))
  let K := addToSparseMatrix K i j (factor * (bi * bj + ci * cj))
  let K := addToSparseMatrix K i k (factor * (bi * bk + ci * ck))
  let K := addToSparseMatrix K j i (factor * (bj * bi + cj * ci))
  let K := addToSparseMatrix K j j (factor * (bj * bj + cj * cj))
  let K := addToSparseMatrix K j k (factor * (bj * bk + cj * ck))
  let K := addToSparseMatrix K k i (factor * (bk * bi + ck * ci))
  let K := addToSparseMatrix K k j (factor * (bk * bj + ck * cj))
  let K := addToSparseMatrix K k k (factor * (bk * bk + ck * ck))
  K

/-- Assembly over all elements in order (part_002 lines 278-315).  The
load vector is untouched by assembly: it starts as all zeros and only the
boundary-condition pass writes it. -/
def assembleK (nodesArr : List MeshNode) (elems : List MeshElement) : SparseK :=
  elems.foldl (assembleElement nodesArr) emptyK

/-- Dirichlet elimination of row and column `i` (part_002 lines 324-327):
`delete K[i][j]` and `delete K[j][i]` for every `j < n`. -/
def deleteRowCol (K : SparseK) (i n : ℕ) : SparseK :=
  (List.range n).foldl
    (fun K j => deleteFromSparseMatrix (deleteFromSparseMatrix K i j) j i) K

/-- One step of the boundary-condition pass for node index `i`
(part_002 lines 318-344): Dirichlet for fixed nodes (row/column deletion,
unit diagonal, prescribed load), Robin for non-fixed boundary nodes of
interior/exterior type (coefficient on the diagonal, coefficient times
the hardcoded reference temperature `20` resp. `0` added to the load),
nothing for adiabatic or untyped boundary nodes. -/
def applyBCStep (nodesArr : List MeshNode) (KF : SparseK × List ℚ) (i : ℕ) :
    SparseK × List ℚ :=
  let node := nodesArr.getD i nodeDefault
  if node.fixed then
    let K := addToSparseMatrix (deleteRowCol KF.1 i nodesArr.length) i i 1
    (K, KF.2.set i node.temperature)
  else if node.isBoundary then
    match node.boundaryType with
    | some BoundaryType.interior =>
        (addToSparseMatrix KF.1 i i INTERIOR_HEAT_TRANSFER_COEFFICIENT,
         KF.2.set i (KF.2.getD i 0 + INTERIOR_HEAT_TRANSFER_COEFFICIENT * 20))
    | some BoundaryType.exterior =>
        (addToSparseMatrix KF.1 i i EXTERIOR_HEAT_TRANSFER_COEFFICIENT,
         KF.2.set i (KF.2.getD i 0 + EXTERIOR_HEAT_TRANSFER_COEFFICIENT * 0))
    | _ => KF
  else KF

/-- The boundary-condition pass over all node indices in ascending order
(part_002 lines 317-345). -/
def applyBoundaryConditions (nodesArr : List MeshNode)
    (KF : SparseK × List ℚ) : SparseK × List ℚ :=
  (List.range nodesArr.length).foldl (applyBCStep nodesArr) KF

/-- Variant of `applyBCStep` with the Robin branch removed.  Used by C10
only, to state that on meshes produced by `generateMesh` the Robin branch
of the source is never taken. -/
def applyBCStepNoRobin (nodesArr : List MeshNode) (KF : SparseK × List ℚ)
    (i : ℕ) : SparseK × List ℚ :=
  let node := nodesArr.getD i nodeDefault
  if node.fixed then
    let K := addToSparseMatrix (deleteRowCol KF.1 i nodesArr.length) i i 1
    (K, KF.2.set i node.temperature)
  else KF

/-- The boundary-condition pass with the Robin branch removed (C10). -/
def applyBoundaryConditionsNoRobin (nodesArr : List MeshNode)
    (KF : SparseK × List ℚ) : SparseK × List ℚ :=
  (List.range nodesArr.length).foldl (applyBCStepNoRobin nodesArr) KF

/-- Modelled from the spec (§4.2, the sentence C2 quotes): the Robin
branch adds `coefficient × reference temperature` to the load vector
where the reference temperatures are "two independently configurable
values" `interiorRef` / `exteriorRef`.  The source has no such
parameters; this definition exists only to be compared against
`applyBCStep` for claim C2. -/
def applyBCStepSpecRobin (interiorRef exteriorRef : ℚ)
    (nodesArr : List MeshNode) (KF : SparseK × List ℚ) (i : ℕ) :
    SparseK × List ℚ :=
  let node := nodesArr.getD i nodeDefault
  if node.fixed then
    let K := addToSparseMatrix (deleteRowCol KF.1 i nodesArr.length) i i 1
    (K, KF.2.set i node.temperature)
  else if node.isBoundary then
    match node.boundaryType with
    | some BoundaryType.interior =>
        (addToSparseMatrix KF.1 i i INTERIOR_HEAT_TRANSFER_COEFFICIENT,
         KF.2.set i (KF.2.getD i 0 + INTERIOR_HEAT_TRANSFER_COEFFICIENT * interiorRef))
    | some BoundaryType.exterior =>
        (addToSparseMatrix KF.1 i i EXTERIOR_HEAT_TRANSFER_COEFFICIENT,
         KF.2.set i (KF.2.getD i 0 + EXTERIOR_HEAT_TRANSFER_COEFFICIENT * exteriorRef))
    | _ => KF
  else KF

/-- The spec-modelled boundary-condition pass with configurable Robin
reference temperatures (for C2 only). -/
def applyBoundaryConditionsSpecRobin (interiorRef exteriorRef : ℚ)
    (nodesArr : List MeshNode) (KF : SparseK × List ℚ) : SparseK × List ℚ :=
  (List.range nodesArr.length).foldl
    (applyBCStepSpecRobin interiorRef exteriorRef nodesArr) KF

/-- One Gauss-Seidel node update (part_002 lines 355-373): skip fixed
nodes; otherwise `sum = F[i] - Σ_{j ≠ i} K[i,j]·T[j]` (the JS truthiness
guard on `K[key]` equals defaulting a missing or zero entry to `0`),
`newT = sum / K[i,i]`, the running maximum of `|newT - T[i]|`.  When the
diagonal is missing or zero JS produces `NaN`/`±Infinity` and keeps
going; the `ℚ` model yields `sum / 0 = 0` and also keeps going — in
neither semantics is an error raised (claim C1). -/
def gsUpdate (nodesArr : List MeshNode) (K : SparseK) (F : List ℚ)
    (acc : List ℚ × ℚ) (i : ℕ) : List ℚ × ℚ :=
  if (nodesArr.getD i nodeDefault).fixed then acc
  else
    let T := acc.1
    let sum := (List.range nodesArr.length).foldl
      (fun s j => if i ≠ j then s - ((lookupK K i j).getD 0) * T.getD j 0 else s)
      (F.getD i 0)
    let newT := sum / ((lookupK K i i).getD 0)
    (T.set i newT, max acc.2 |newT - T.getD i 0|)

/-- One Gauss-Seidel sweep over all node indices in ascending order,
returning the updated temperatures and the sweep's maximum absolute
change (part_002 lines 353-374; `error` is reset to `0` at the start of
each sweep). -/
def gsSweep (nodesArr : List MeshNode) (K : SparseK) (F : List ℚ)
    (T : List ℚ) : List ℚ × ℚ :=
  (List.range nodesArr.length).foldl (gsUpdate nodesArr K F) (T, 0)

/-- The iteration loop (part_002 lines 348-377):
`while (iteration < maxIterations && error > tolerance)` with `error`
initialised to `tolerance + 1`; `fuel` counts the remaining iterations. -/
def gsLoop (nodesArr : List MeshNode) (K : SparseK) (F : List ℚ) :
    ℕ → ℚ → ℚ → List ℚ → List ℚ
  | 0, _, _, T => T
  | fuel + 1, tol, err, T =>
      if err > tol then
        let s := gsSweep nodesArr K F T
        gsLoop nodesArr K F fuel tol s.2 s.1
      else T

/-- `Math.min(...T)` over a list (part_002 line 385).  JS yields
`+Infinity` on an empty list; the model yields `0` there (only the empty
mesh reaches that case, outside every value claim's scope). -/
def jsMin (l : List ℚ) : ℚ :=
  match l with
  | [] => 0
  | a :: rest => rest.foldl min a

/-- `Math.max(...T)` over a list (part_002 line 386); `0` on `[]`. -/
def jsMax (l : List ℚ) : ℚ :=
  match l with
  | [] => 0
  | a :: rest => rest.foldl max a

/-- `calculateFRsiValue` (part_002 lines 442-459): the minimum
temperature among interior-boundary nodes, starting the scan from
`maxTemp`, then `(minSurfaceTemp - minTemp) / (maxTemp - minTemp)`. -/
def calculateFRsiValue (mesh : Mesh) (minTemp maxTemp : ℚ) : ℚ :=
  let minSurfaceTemp := mesh.nodes.foldl
    (fun acc node =>
      if node.isBoundary = true ∧ node.boundaryType = some BoundaryType.interior then
        min acc node.temperature
      else acc)
    maxTemp
  (minSurfaceTemp - minTemp) / (maxTemp - minTemp)

/-- `estimateTotalHeatFlow` (part_002 lines 510-547): for every
interior-boundary node, over the elements whose node-index triple
contains the node's `id`, accumulate
`conductivity * (dT / sqrt area) * sqrt area`, which is
`conductivity * dT` for a positive area (the two square roots cancel in
exact semantics); a zero-area element contributes `NaN` in JS and `0`
here (outside every claim's scope). -/
def estimateTotalHeatFlow (mesh : Mesh) : ℚ :=
  mesh.nodes.foldl
    (fun totalFlow node =>
      if node.isBoundary = true ∧ node.boundaryType = some BoundaryType.interior then
        let connectedElements := mesh.elements.filter
          (fun el => decide (el.nodes.1 = node.id ∨ el.nodes.2.1 = node.id ∨
            el.nodes.2.2 = node.id))
        let localFlow := connectedElements.foldl
          (fun lf el =>
            let ni := mesh.nodes.getD el.nodes.1 nodeDefault
            let nj := mesh.nodes.getD el.nodes.2.1 nodeDefault
            let nk := mesh.nodes.getD el.nodes.2.2 nodeDefault
            let area := (1 / 2) *
              |(nj.x - ni.x) * (nk.y - ni.y) - (nk.x - ni.x) * (nj.y - ni.y)|
            let dT := |node.temperature -
              (ni.temperature + nj.temperature + nk.temperature) / 3|
            if area = 0 then lf else lf + el.material.thermalConductivity * dT)
          0
        totalFlow + localFlow
      else totalFlow)
    0

/-- A horizontal band of boundary nodes grouped by `y` (part_002
lines 556-577). -/
structure WallGroup where
  y : ℚ
  nodes : List MeshNode
  deriving DecidableEq, Repr

/-- Insert a boundary node into the first band within tolerance `5` of
its `y`, or append a new band (part_002 lines 561-577; JS `find` returns
the first match and `push` appends). -/
def addNodeToWalls : List WallGroup → MeshNode → List WallGroup
  | [], node => [{ y := node.y, nodes := [node] }]
  | wall :: rest, node =>
      if |wall.y - node.y| < 5 then
        { y := wall.y, nodes := wall.nodes ++ [node] } :: rest
      else wall :: addNodeToWalls rest node

/-- All horizontal bands of the mesh's boundary nodes, in creation order
(part_002 lines 558-577). -/
def horizontalWalls (mesh : Mesh) : List WallGroup :=
  mesh.nodes.foldl
    (fun walls node => if node.isBoundary then addNodeToWalls walls node else walls)
    []

/-- Insertion into a list sorted by ascending `x` (for the JS
`sort((a, b) => a.x - b.x)`; every downstream use — two filters, two
sums, a length — is independent of how ties are ordered). -/
def insertByX (node : MeshNode) : List MeshNode → List MeshNode
  | [] => [node]
  | m :: rest => if node.x ≤ m.x then node :: m :: rest else m :: insertByX node rest

/-- Sort a node list by ascending `x` (part_002 line 582). -/
def sortByX (l : List MeshNode) : List MeshNode :=
  l.foldr insertByX []

/-- `findElementsInRegion` (part_002 lines 640-659): the elements whose
vertex centroid lies in the axis-aligned box. -/
def findElementsInRegion (mesh : Mesh) (minX minY maxX maxY : ℚ) :
    List MeshElement :=
  mesh.elements.filter fun el =>
    let ni := mesh.nodes.getD el.nodes.1 nodeDefault
    let nj := mesh.nodes.getD el.nodes.2.1 nodeDefault
    let nk := mesh.nodes.getD el.nodes.2.2 nodeDefault
    let centerX := (ni.x + nj.x + nk.x) / 3
    let centerY := (ni.y + nj.y + nk.y) / 3
    decide (minX ≤ centerX ∧ centerX ≤ maxX ∧ minY ≤ centerY ∧ centerY ≤ maxY)

/-- Deduplicate materials by name keeping first occurrences: the JS
`filter((m, idx, self) => idx === self.findIndex(...name equal...))`
(part_002 lines 604-607). -/
def dedupMaterials (ms : List MaterialProperties) : List MaterialProperties :=
  ms.foldl (fun acc m => if acc.any (fun m2 => m2.name == m.name) then acc
    else acc ++ [m]) []

/-- The 1-D flow contribution of one horizontal band (part_002
lines 580-634): average exterior/interior `x`, wall thickness, the
elements of the band's box, per-material estimated thickness and
resistance, surface resistances, U-value, approximate band length
`count × 5`, times the temperature difference.  JS divides by zero when
the band's element list is empty (`NaN`); the `ℚ` model yields `0`
contributions there. -/
def wallFlow (mesh : Mesh) (minTemp maxTemp : ℚ) (wall : WallGroup) : ℚ :=
  let sortedNodes := sortByX wall.nodes
  let exteriorNodes := sortedNodes.filter
    (fun n => decide (n.boundaryType = some BoundaryType.exterior))
  let interiorNodes := sortedNodes.filter
    (fun n => decide (n.boundaryType = some BoundaryType.interior))
  if exteriorNodes.length ≠ 0 ∧ interiorNodes.length ≠ 0 then
    let avgExteriorX := (exteriorNodes.foldl (fun s n => s + n.x) 0) /
      (exteriorNodes.length : ℚ)
    let avgInteriorX := (interiorNodes.foldl (fun s n => s + n.x) 0) /
      (interiorNodes.length : ℚ)
    let wallThickness := |avgInteriorX - avgExteriorX|
    let elementsInWall := findElementsInRegion mesh
      (min avgExteriorX avgInteriorX) (wall.y - 5)
      (max avgExteriorX avgInteriorX) (wall.y + 5)
    let materials := elementsInWall.map (fun el => el.material)
    let uniqueMaterials := dedupMaterials materials
    let equivalentR := uniqueMaterials.foldl
      (fun r material =>
        let materialElements := elementsInWall.filter
          (fun el => el.material.name == material.name)
        let materialThickness := wallThickness *
          ((materialElements.length : ℚ) / (elementsInWall.length : ℚ))
        r + materialThickness / material.thermalConductivity)
      0
    let equivalentR := equivalentR + 1 / INTERIOR_HEAT_TRANSFER_COEFFICIENT +
      1 / EXTERIOR_HEAT_TRANSFER_COEFFICIENT
    let uValue := 1 / equivalentR
    let wallLength := (sortedNodes.length : ℚ) * 5
    uValue * wallLength * (maxTemp - minTemp)
  else 0

/-- `estimateOneDimensionalHeatFlow` (part_002 lines 550-637). -/
def estimateOneDimensionalHeatFlow (mesh : Mesh) (minTemp maxTemp : ℚ) : ℚ :=
  (horizontalWalls mesh).foldl
    (fun acc wall => acc + wallFlow mesh minTemp maxTemp wall) 0

/-- `calculatePsiValue` (part_002 lines 423-439): total flow estimate
minus 1-D flow estimate. -/
def calculatePsiValue (mesh : Mesh) (minTemp maxTemp : ℚ) : ℚ :=
  estimateTotalHeatFlow mesh - estimateOneDimensionalHeatFlow mesh minTemp maxTemp

/-- `calculateHeatFlux` (part_002 lines 462-507): per element, the
shape-function temperature gradient, the flux `q = -k ∇T`, the centroid
position; the model stores the squared magnitude (see `FluxValue`). -/
def calculateHeatFlux (mesh : Mesh) : List FluxValue :=
  mesh.elements.map fun el =>
    let ni := mesh.nodes.getD el.nodes.1 nodeDefault
    let nj := mesh.nodes.getD el.nodes.2.1 nodeDefault
    let nk := mesh.nodes.getD el.nodes.2.2 nodeDefault
    let area := (1 / 2) *
      |(nj.x - ni.x) * (nk.y - ni.y) - (nk.x - ni.x) * (nj.y - ni.y)|
    let bi := nj.y - nk.y
    let bj := nk.y - ni.y
    let bk := ni.y - nj.y
    let ci := nk.x - nj.x
    let cj := ni.x - nk.x
    let ck := nj.x - ni.x
    let gradTx := (bi * ni.temperature + bj * nj.temperature + bk * nk.temperature) /
      (2 * area)
    let gradTy := (ci * ni.temperature + cj * nj.temperature + ck * nk.temperature) /
      (2 * area)
    let conductivity := el.material.thermalConductivity
    let qx := -conductivity * gradTx
    let qy := -conductivity * gradTy
    { x := (ni.x + nj.x + nk.x) / 3, y := (ni.y + nj.y + nk.y) / 3,
      magnitudeSq := qx * qx + qy * qy }

/-- The assembled system of a mesh: global conductance matrix and load
vector after the boundary-condition pass (part_002 lines 272-345; the
load vector starts as `n` zeros). -/
def assembledSystem (mesh : Mesh) : SparseK × List ℚ :=
  applyBoundaryConditions mesh.nodes
    (assembleK mesh.nodes mesh.elements, List.replicate mesh.nodes.length 0)

/-- The temperature vector after the Gauss-Seidel loop (part_002
lines 348-377), starting from the nodes' initial temperatures, with
`error` initialised to `tolerance + 1`. -/
def solvedTemps (mesh : Mesh) (maxIterations : ℕ) (tolerance : ℚ) : List ℚ :=
  gsLoop mesh.nodes (assembledSystem mesh).1 (assembledSystem mesh).2
    maxIterations tolerance (tolerance + 1) (mesh.nodes.map (fun n => n.temperature))

/-- The node list with solved temperatures written back
(part_002 lines 379-382: `nodes[i].temperature = T[i]`; only the
`temperature` field changes). -/
def solvedNodeList (mesh : Mesh) (maxIterations : ℕ) (tolerance : ℚ) :
    List MeshNode :=
  List.zipWith (fun node t => { node with temperature := t }) mesh.nodes
    (solvedTemps mesh maxIterations tolerance)

/-- `solveHeatTransfer` (part_002 lines 268-409): assembly, boundary
conditions, Gauss-Seidel, write-back, extrema, the nine isotherm levels
`min + (i+1)·range/10`, PSI, fRsi and flux diagnostics computed on the
solved mesh.  The function is total: it returns a result record on every
input — there is no error channel of any kind in the source. -/
def solveHeatTransfer (mesh : Mesh) (maxIterations : ℕ := 1000)
    (tolerance : ℚ := 1 / 1000000) : ThermalSimulationResult :=
  let T := solvedTemps mesh maxIterations tolerance
  let solvedMesh : Mesh :=
    { nodes := solvedNodeList mesh maxIterations tolerance,
      elements := mesh.elements }
  { nodes := solvedNodeList mesh maxIterations tolerance,
    elements := mesh.elements,
    minTemperature := jsMin T,
    maxTemperature := jsMax T,
    isotherms := (List.range 9).map
      (fun i => jsMin T + ((i : ℚ) + 1) * (jsMax T - jsMin T) / 10),
    psiValue := calculatePsiValue solvedMesh (jsMin T) (jsMax T),
    fRsiValue := calculateFRsiValue solvedMesh (jsMin T) (jsMax T),
    fluxValues := calculateHeatFlux solvedMesh }

/-! Concrete fixtures used by the claim theorems and witnesses. -/

/-- A unit-conductivity material for hand-built meshes. -/
def matUnit : MaterialProperties :=
  { name := "Unit", thermalConductivity := 1, defaultThickness := 100,
    color := "#CCCCCC" }

/-- A three-node mesh with one unit triangle: two Dirichlet nodes at
`0 °C` (exterior) and `20 °C` (interior) and one free node. -/
def mesh3 : Mesh :=
  { nodes :=
      [ { id := 0, x := 0, y := 0, temperature := 0, fixed := true,
          isBoundary := true, boundaryType := some BoundaryType.exterior },
        { id := 1, x := 1, y := 0, temperature := 20, fixed := true,
          isBoundary := true, boundaryType := some BoundaryType.interior },
        { id := 2, x := 0, y := 1, temperature := 0, fixed := false,
          isBoundary := false, boundaryType := none } ],
    elements := [ { id := 0, nodes := (0, 1, 2), material := matUnit } ] }

/-- A four-node unit-square mesh (two triangles) with two Dirichlet
nodes, one free Robin (interior, non-fixed) node and one free inner
node; Gauss-Seidel on it does not converge in a single sweep. -/
def mesh4 : Mesh :=
  { nodes :=
      [ { id := 0, x := 0, y := 0, temperature := 0, fixed := true,
          isBoundary := true, boundaryType := some BoundaryType.exterior },
        { id := 1, x := 1, y := 0, temperature := 20, fixed := true,
          isBoundary := true, boundaryType := some BoundaryType.interior },
        { id := 2, x := 0, y := 1, temperature := 0, fixed := false,
          isBoundary := true, boundaryType := some BoundaryType.interior },
        { id := 3, x := 1, y := 1, temperature := 0, fixed := false,
          isBoundary := false, boundaryType := none } ],
    elements :=
      [ { id := 0, nodes := (0, 1, 3), material := matUnit },
        { id := 1, nodes := (0, 3, 2), material := matUnit } ] }

/-- A degenerate mesh: one non-fixed node, starting at `7 °C`, that no
element references, so its diagonal conductance entry is never
created. -/
def degMesh : Mesh :=
  { nodes := [ { id := 0, x := 0, y := 0, temperature := 7, fixed := false,
                 isBoundary := false, boundaryType := none } ],
    elements := [] }

/-- A single non-fixed interior-boundary (Robin) node. -/
def robinNodes : List MeshNode :=
  [ { id := 0, x := 0, y := 0, temperature := 0, fixed := false,
      isBoundary := true, boundaryType := some BoundaryType.interior } ]

/-- A concrete material for the drawing fixtures. -/
def demoMat : MaterialProperties :=
  { name := "Concrete", thermalConductivity := 23 / 10,
    defaultThickness := 200, color := "#888888" }

/-- A rectangle drawing element whose two corner points coincide at the
origin (so the bounding box is a single point and the generated grid is
exactly `11 × 11`). -/
def demoRect : DrawingElement :=
  { id := "r1", kind := ElementKind.rectangle,
    points := [{ x := 0, y := 0 }, { x := 0, y := 0 }],
    material := some demoMat }

/-- A one-region input. -/
def demoEls : List DrawingElement := [demoRect]

/-- A second element sharing a corner point with `demoRect`, so the pair
produces a junction. -/
def demoRect2 : DrawingElement :=
  { id := "r2", kind := ElementKind.rectangle,
    points := [{ x := 0, y := 0 }, { x := 0, y := 0 }],
    material := some demoMat }

/-- A two-region input with one junction at the origin. -/
def demoEls2 : List DrawingElement := [demoRect, demoRect2]

/-! General helper lemmas about the folds used by the embedding. -/

/-- A fold preserves an invariant preserved by each step. -/
theorem foldl_invariant {α β : Type} (P : α → Prop) (f : α → β → α)
    (l : List β) (init : α) (h0 : P init)
    (hstep : ∀ a b, P a → P (f a b)) : P (l.foldl f init) := by
  induction l generalizing init with
  | nil => exact h0
  | cons b bs ih => exact ih (f init b) (hstep init b h0)

/-- A fold whose every step appends to its list yields an extension of
the initial list. -/
theorem foldl_extends {β : Type} (f : List MeshNode → β → List MeshNode)
    (hf : ∀ l b, ∃ t, f l b = l ++ t) (l : List β) (init : List MeshNode) :
    ∃ t, l.foldl f init = init ++ t := by
  induction l generalizing init with
  | nil => exact ⟨[], by simp⟩
  | cons b bs ih =>
      obtain ⟨t1, h1⟩ := hf init b
      obtain ⟨t2, h2⟩ := ih (f init b)
      exact ⟨t1 ++ t2, by rw [List.foldl_cons, h2, h1, List.append_assoc]⟩

/-- Elements of a fold whose steps only add elements satisfying `P`. -/
theorem mem_foldl_of_step {β : Type} (P : MeshNode → Prop)
    (f : List MeshNode → β → List MeshNode)
    (hf : ∀ l b x, x ∈ f l b → x ∈ l ∨ P x) (l : List β)
    (init : List MeshNode) :
    ∀ x ∈ l.foldl f init, x ∈ init ∨ P x := by
  induction l generalizing init with
  | nil => exact fun x hx => Or.inl hx
  | cons b bs ih =>
      intro x hx
      rcases ih (f init b) x hx with h | h
      · exact hf init b x h
      · exact Or.inr h

/-- A refinement step appends (possibly nothing) to the node list. -/
theorem refineCandidate_extends (eb : Bounds) (r s : ℚ) (jn : Point)
    (ns : List MeshNode) (ij : ℕ × ℕ) :
    ∃ t, refineCandidate eb r s jn ns ij = ns ++ t := by
  simp only [refineCandidate]
  split
  · split
    · exact ⟨[], (List.append_nil ns).symm⟩
    · exact ⟨_, rfl⟩
  · exact ⟨[], (List.append_nil ns).symm⟩

/-- A node produced by a refinement step is an old node or carries
`fixed = false`, `isBoundary = false`, no boundary type. -/
theorem refineCandidate_mem (eb : Bounds) (r s : ℚ) (jn : Point)
    (ns : List MeshNode) (ij : ℕ × ℕ) :
    ∀ x ∈ refineCandidate eb r s jn ns ij, x ∈ ns ∨
      (x.fixed = false ∧ x.isBoundary = false ∧ x.boundaryType = none) := by
  intro x hx
  simp only [refineCandidate] at hx
  split at hx
  · split at hx
    · exact Or.inl hx
    · rcases List.mem_append.mp hx with h | h
      · exact Or.inl h
      · rcases List.mem_singleton.mp h with rfl
        exact Or.inr ⟨rfl, rfl, rfl⟩
  · exact Or.inl hx

/-- The whole refinement pass appends (possibly nothing) to the node
list: the structured grid is an initial segment of the final node list. -/
theorem refineNodes_extends (eb : Bounds) (r s : ℚ) (junctions : List Point)
    (ns : List MeshNode) :
    ∃ t, refineNodes eb r s junctions ns = ns ++ t := by
  refine foldl_extends _ (fun l jn => ?_) junctions ns
  exact foldl_extends _ (fun l ij => refineCandidate_extends eb r s jn l ij) _ l

/-- Every node after the refinement pass is a grid node or a refined
node with `fixed = false`, `isBoundary = false`, no boundary type. -/
theorem refineNodes_mem (eb : Bounds) (r s : ℚ) (junctions : List Point)
    (ns : List MeshNode) :
    ∀ x ∈ refineNodes eb r s junctions ns, x ∈ ns ∨
      (x.fixed = false ∧ x.isBoundary = false ∧ x.boundaryType = none) := by
  refine mem_foldl_of_step _ _ (fun l jn x hx => ?_) junctions ns
  exact mem_foldl_of_step _ _ (fun l2 ij x2 hx2 =>
    refineCandidate_mem eb r s jn l2 ij x2 hx2) _ l x hx

/-- The two structural facts of a grid node: its Dirichlet flag implies
its boundary flag, and an interior/exterior boundary type implies the
Dirichlet flag (both by the branch structure of part_002 lines 94-109). -/
theorem mkGridNode_props (eb : Bounds) (nx ny : ℕ) (iT eT : ℚ) (i j : ℕ) :
    ((mkGridNode eb nx ny iT eT i j).fixed = true →
      (mkGridNode eb nx ny iT eT i j).isBoundary = true) ∧
    (((mkGridNode eb nx ny iT eT i j).boundaryType = some BoundaryType.interior ∨
      (mkGridNode eb nx ny iT eT i j).boundaryType = some BoundaryType.exterior) →
      (mkGridNode eb nx ny iT eT i j).fixed = true) := by
  simp only [mkGridNode]
  split
  · next h =>
      refine ⟨fun _ => ?_, fun _ => rfl⟩
      simp only [h, decide_True, Bool.true_or]
  · split
    · next h =>
        refine ⟨fun _ => ?_, fun _ => rfl⟩
        simp only [h, decide_True, Bool.or_true, Bool.true_or]
    · split
      · refine ⟨fun h => ?_, fun h => ?_⟩
        · exact absurd h (by simp)
        · rcases h with h | h <;> simp at h
      · refine ⟨fun h => ?_, fun h => ?_⟩
        · exact absurd h (by simp)
        · rcases h with h | h <;> simp at h

/-- Every node of the structured grid satisfies the two structural
facts of `mkGridNode_props`. -/
theorem gridFromBounds_props (eb : Bounds) (m iT eT : ℚ) :
    ∀ node ∈ gridFromBounds eb m iT eT,
      (node.fixed = true → node.isBoundary = true) ∧
      ((node.boundaryType = some BoundaryType.interior ∨
        node.boundaryType = some BoundaryType.exterior) → node.fixed = true) := by
  intro node hnode
  simp only [gridFromBounds, List.mem_flatMap, List.mem_map, List.mem_range] at hnode
  obtain ⟨j, hj, i, hi, rfl⟩ := hnode
  exact mkGridNode_props _ _ _ _ _ _ _

/-- The structured grid has exactly `ny * nx` nodes. -/
theorem length_gridFromBounds (eb : Bounds) (m iT eT : ℚ) :
    (gridFromBounds eb m iT eT).length =
      ((Rat.ceil ((eb.maxY - eb.minY) / m)).toNat + 1) *
      ((Rat.ceil ((eb.maxX - eb.minX) / m)).toNat + 1) := by
  simp [gridFromBounds, List.length_flatMap, Function.comp_def,
    List.map_const', List.sum_replicate, smul_eq_mul]

/-- One grid cell contributes exactly two triangles. -/
theorem length_cellElements (els : List DrawingElement) (ns : List MeshNode)
    (nx : ℕ) (ij : ℕ × ℕ) : (cellElements els ns nx ij).length = 2 := rfl

/-- The element list has exactly `2 * (nx - 1) * (ny - 1)` triangles. -/
theorem length_elementsFromBounds (els : List DrawingElement)
    (ns : List MeshNode) (nx ny : ℕ) :
    (elementsFromBounds els ns nx ny).length = 2 * (nx - 1) * (ny - 1) := by
  simp [elementsFromBounds, List.length_flatMap, Function.comp_def,
    length_cellElements, List.map_const', List.sum_replicate, smul_eq_mul]
  ring

/-- Every triangle's three node indices are below `nx * ny`, the size of
the structured grid. -/
theorem elementsFromBounds_indices (els : List DrawingElement)
    (ns : List MeshNode) (nx ny : ℕ) :
    ∀ el ∈ elementsFromBounds els ns nx ny,
      el.nodes.1 < nx * ny ∧ el.nodes.2.1 < nx * ny ∧ el.nodes.2.2 < nx * ny := by
  intro el hel
  simp only [elementsFromBounds, List.mem_flatMap, List.mem_range] at hel
  obtain ⟨j, hj, i, hi, hmem⟩ := hel
  have hi1 : i + 1 < nx := by omega
  have hj1 : j + 1 < ny := by omega
  have hstep : (j + 1) * nx + nx = (j + 2) * nx := by ring
  have hmul : (j + 2) * nx ≤ ny * nx := Nat.mul_le_mul_right nx (by omega)
  have hmono : j * nx ≤ (j + 1) * nx := Nat.mul_le_mul_right nx (by omega)
  have hco : ny * nx = nx * ny := Nat.mul_comm ny nx
  have hbound : (j + 1) * nx + i + 1 < nx * ny := by
    have h1 : (j + 1) * nx + i + 1 < (j + 1) * nx + nx := by omega
    rw [hstep] at h1
    omega
  simp only [cellElements, List.mem_cons, List.not_mem_nil, or_false] at hmem
  rcases hmem with rfl | rfl
  · refine ⟨?_, ?_, ?_⟩ <;> simp only [] <;> omega
  · refine ⟨?_, ?_, ?_⟩ <;> simp only [] <;> omega

/-- C4: For every mesh returned by `generateMesh` (any region list,
`meshSize > 0`, `adaptiveFactor ∈ (0,1]`), every node whose `fixed` flag
is true also has `isBoundary` true, and every element's three node
indices lie within `[0, nodeCount)`. -/
theorem claim_C4 (els : List DrawingElement) (m a iT eT : ℚ)
    (hm : 0 < m) (ha : 0 < a) (ha1 : a ≤ 1) :
    (∀ node ∈ (generateMesh els m a iT eT).nodes,
      node.fixed = true → node.isBoundary = true) ∧
    (∀ el ∈ (generateMesh els m a iT eT).elements,
      el.nodes.1 < (generateMesh els m a iT eT).nodes.length ∧
      el.nodes.2.1 < (generateMesh els m a iT eT).nodes.length ∧
      el.nodes.2.2 < (generateMesh els m a iT eT).nodes.length) := by
  cases hb : boundsOf els with
  | none => simp [generateMesh, hb]
  | some b =>
      simp only [generateMesh, hb]
      constructor
      · intro node hnode hfix
        rcases refineNodes_mem (expandBounds b m) (m * 5) (m * a)
          (findJunctions els) (gridFromBounds (expandBounds b m) m iT eT)
          node hnode with h | h
        · exact (gridFromBounds_props (expandBounds b m) m iT eT node h).1 hfix
        · rw [h.1] at hfix; exact absurd hfix (by simp)
      · intro el hel
        obtain ⟨rest, hrest⟩ := refineNodes_extends (expandBounds b m) (m * 5)
          (m * a) (findJunctions els) (gridFromBounds (expandBounds b m) m iT eT)
        have hidx := elementsFromBounds_indices els
          (refineNodes (expandBounds b m) (m * 5) (m * a) (findJunctions els)
            (gridFromBounds (expandBounds b m) m iT eT))
          ((Rat.ceil (((expandBounds b m).maxX - (expandBounds b m).minX) / m)).toNat + 1)
          ((Rat.ceil (((expandBounds b m).maxY - (expandBounds b m).minY) / m)).toNat + 1)
          el hel
        have hlen : ((Rat.ceil (((expandBounds b m).maxX - (expandBounds b m).minX) / m)).toNat + 1) *
            (((Rat.ceil (((expandBounds b m).maxY - (expandBounds b m).minY) / m)).toNat + 1)) ≤
            (refineNodes (expandBounds b m) (m * 5) (m * a) (findJunctions els)
              (gridFromBounds (expandBounds b m) m iT eT)).length := by
          rw [hrest, List.length_append, length_gridFromBounds]
          have := Nat.mul_comm
            ((Rat.ceil (((expandBounds b m).maxX - (expandBounds b m).minX) / m)).toNat + 1)
            ((Rat.ceil (((expandBounds b m).maxY - (expandBounds b m).minY) / m)).toNat + 1)
          omega
        refine ⟨?_, ?_, ?_⟩ <;> omega

/-- Witness for C4 at a concrete input. -/
theorem claim_C4_witness :
    (0:ℚ) < 3 ∧ (0:ℚ) < 3/10 ∧ (3/10:ℚ) ≤ 1 ∧
    (∀ node ∈ (generateMesh demoEls 3 (3/10) 20 0).nodes,
      node.fixed = true → node.isBoundary = true) ∧
    (∀ el ∈ (generateMesh demoEls 3 (3/10) 20 0).elements,
      el.nodes.1 < (generateMesh demoEls 3 (3/10) 20 0).nodes.length ∧
      el.nodes.2.1 < (generateMesh demoEls 3 (3/10) 20 0).nodes.length ∧
      el.nodes.2.2 < (generateMesh demoEls 3 (3/10) 20 0).nodes.length) :=
  ⟨by decide, by decide, by decide,
   (claim_C4 demoEls 3 (3/10) 20 0 (by decide) (by decide) (by decide)).1,
   (claim_C4 demoEls 3 (3/10) 20 0 (by decide) (by decide) (by decide)).2⟩

/-- The bounding-box scan yields `none` exactly for inputs without
points. -/
theorem boundsOf_eq_none_iff (els : List DrawingElement) :
    boundsOf els = none ↔ allPoints els = [] := by
  unfold boundsOf
  cases allPoints els <;> simp

/-- The library's computable `Rat.ceil` is the mathematical ceiling
`⌈q⌉` (used by C5 to read the grid-size formula as the spec writes it). -/
theorem ratCeil_eq_intCeil (q : ℚ) : (Rat.ceil q : ℤ) = ⌈q⌉ := by
  symm
  rw [Int.ceil_eq_iff]
  by_cases hden : q.den = 1
  · have hq : (q.num : ℚ) = q := by
      conv_rhs => rw [← Rat.num_div_den q]
      rw [hden, Nat.cast_one, div_one]
    rw [Rat.ceil, if_pos hden]
    constructor
    · rw [hq]
      linarith
    · rw [hq]
  · have hd : (0 : ℤ) < (q.den : ℤ) := by exact_mod_cast q.pos
    have hnd : ¬ ((q.den : ℤ) ∣ q.num) := by
      intro hdvd
      exact hden (Nat.Coprime.eq_one_of_dvd q.reduced.symm (Int.natCast_dvd.mp hdvd))
    have hq0 : q = (q.num : ℚ) / ((q.den : ℤ) : ℚ) := by
      push_cast
      exact (Rat.num_div_den q).symm
    rw [Rat.ceil, if_neg hden]
    obtain ⟨n, d, hn, hd2⟩ : ∃ n d, q.num = n ∧ (q.den : ℤ) = d :=
      ⟨q.num, q.den, rfl, rfl⟩
    rw [hd2] at hd
    rw [hn, hd2] at hnd
    rw [hn, hd2] at hq0
    rw [hn, hd2]
    have hdQ : (0 : ℚ) < (d : ℚ) := by exact_mod_cast hd
    have hmodpos : 0 < n % d := by
      rcases lt_or_eq_of_le (Int.emod_nonneg n (ne_of_gt hd)) with h | h
      · exact h
      · exact absurd (Int.dvd_of_emod_eq_zero h.symm) hnd
    have hmodlt : n % d < d := Int.emod_lt_of_pos n hd
    have hdiv := Int.ediv_add_emod n d
    constructor
    · push_cast
      rw [hq0]
      have h2 : ((n / d : ℤ) : ℚ) + 1 - 1 = ((n / d : ℤ) : ℚ) := by ring
      rw [h2, lt_div_iff₀ hdQ]
      have h3 : (n / d) * d < n := by
        have hcomm : (n / d) * d = d * (n / d) := Int.mul_comm _ _
        omega
      exact_mod_cast h3
    · push_cast
      rw [hq0, div_le_iff₀ hdQ]
      have h3 : n ≤ (n / d + 1) * d := by
        have hcomm : (n / d + 1) * d = d * (n / d) + d := by ring
        omega
      exact_mod_cast h3

/-- C5: For every valid region set, `nx = ceil(domainWidth/meshSize)+1`
columns (`ny` analogously), the node count before junction-refinement
insertion (`gridOf`) equals `nx * ny`, and the element count equals
`2 * (nx-1) * (ny-1)`, where `domainWidth` is the regions' bounding-box
width expanded by `5 × meshSize` on each side (`Rat.ceil` is the
library's ceiling function on `ℚ`). -/
theorem claim_C5 (els : List DrawingElement) (m a iT eT : ℚ)
    (hm : 0 < m) (hne : allPoints els ≠ []) :
    (gridOf els m iT eT).length = meshNx els m * meshNy els m ∧
    (generateMesh els m a iT eT).elements.length =
      2 * (meshNx els m - 1) * (meshNy els m - 1) ∧
    (∀ b, boundsOf els = some b →
      meshNx els m = (⌈(b.maxX - b.minX + 10 * m) / m⌉).toNat + 1 ∧
      meshNy els m = (⌈(b.maxY - b.minY + 10 * m) / m⌉).toNat + 1) := by
  cases hb : boundsOf els with
  | none => exact absurd ((boundsOf_eq_none_iff els).mp hb) hne
  | some b =>
      refine ⟨?_, ?_, ?_⟩
      · simp only [gridOf, meshNx, meshNy, hb]
        rw [length_gridFromBounds]
        exact Nat.mul_comm _ _
      · simp only [generateMesh, meshNx, meshNy, hb]
        rw [length_elementsFromBounds]
      · intro b2 hb2
        injection hb2 with hbb
        subst hbb
        have hx : (expandBounds b m).maxX - (expandBounds b m).minX =
            b.maxX - b.minX + 10 * m := by
          simp only [expandBounds]
          ring
        have hy : (expandBounds b m).maxY - (expandBounds b m).minY =
            b.maxY - b.minY + 10 * m := by
          simp only [expandBounds]
          ring
        constructor
        · simp only [meshNx, hb, hx, ratCeil_eq_intCeil]
        · simp only [meshNy, hb, hy, ratCeil_eq_intCeil]

/-- Witness for C5 at a concrete input. -/
theorem claim_C5_witness :
    (0:ℚ) < 3 ∧ allPoints demoEls ≠ [] ∧
    (gridOf demoEls 3 20 0).length = meshNx demoEls 3 * meshNy demoEls 3 ∧
    (generateMesh demoEls 3 (3/10) 20 0).elements.length =
      2 * (meshNx demoEls 3 - 1) * (meshNy demoEls 3 - 1) :=
  ⟨by decide, by decide,
   (claim_C5 demoEls 3 (3/10) 20 0 (by decide) (by decide)).1,
   (claim_C5 demoEls 3 (3/10) 20 0 (by decide) (by decide)).2.1⟩

/-- C6: For every mesh produced by `generateMesh` with at least one
junction, the refinement pass only appends to the structured grid
(`gridOf` is an initial segment of the node list) and every element's
three node indices are strictly below the grid size `gridOf.length`
(which equals `nx * ny` by C5), so every node appended by adaptive
refinement — every node at a position `≥ gridOf.length` — is referenced
by no triangle and is disconnected from the mesh topology. -/
theorem claim_C6 (els : List DrawingElement) (m a iT eT : ℚ)
    (hm : 0 < m) (hj : findJunctions els ≠ []) :
    (∃ rest, (generateMesh els m a iT eT).nodes = gridOf els m iT eT ++ rest) ∧
    (∀ el ∈ (generateMesh els m a iT eT).elements,
      el.nodes.1 < (gridOf els m iT eT).length ∧
      el.nodes.2.1 < (gridOf els m iT eT).length ∧
      el.nodes.2.2 < (gridOf els m iT eT).length) := by
  cases hb : boundsOf els with
  | none =>
      refine ⟨⟨[], ?_⟩, ?_⟩ <;> simp [generateMesh, gridOf, hb]
  | some b =>
      constructor
      · simp only [generateMesh, gridOf, hb]
        exact refineNodes_extends _ _ _ _ _
      · intro el hel
        simp only [generateMesh, hb] at hel
        have hidx := elementsFromBounds_indices els
          (refineNodes (expandBounds b m) (m * 5) (m * a) (findJunctions els)
            (gridFromBounds (expandBounds b m) m iT eT))
          ((Rat.ceil (((expandBounds b m).maxX - (expandBounds b m).minX) / m)).toNat + 1)
          ((Rat.ceil (((expandBounds b m).maxY - (expandBounds b m).minY) / m)).toNat + 1)
          el hel
        have hlen : (gridOf els m iT eT).length =
            ((Rat.ceil (((expandBounds b m).maxY - (expandBounds b m).minY) / m)).toNat + 1) *
            ((Rat.ceil (((expandBounds b m).maxX - (expandBounds b m).minX) / m)).toNat + 1) := by
          simp only [gridOf, hb]
          exact length_gridFromBounds _ _ _ _
        have hcomm := Nat.mul_comm
          ((Rat.ceil (((expandBounds b m).maxX - (expandBounds b m).minX) / m)).toNat + 1)
          ((Rat.ceil (((expandBounds b m).maxY - (expandBounds b m).minY) / m)).toNat + 1)
        refine ⟨?_, ?_, ?_⟩ <;> omega

/-- Witness for C6 at a concrete input with one junction. -/
theorem claim_C6_witness :
    (0:ℚ) < 3 ∧ findJunctions demoEls2 ≠ [] ∧
    (∃ rest, (generateMesh demoEls2 3 1 20 0).nodes =
      gridOf demoEls2 3 20 0 ++ rest) ∧
    (∀ el ∈ (generateMesh demoEls2 3 1 20 0).elements,
      el.nodes.1 < (gridOf demoEls2 3 20 0).length ∧
      el.nodes.2.1 < (gridOf demoEls2 3 20 0).length ∧
      el.nodes.2.2 < (gridOf demoEls2 3 20 0).length) :=
  ⟨by decide, by decide,
   (claim_C6 demoEls2 3 1 20 0 (by decide) (by decide)).1,
   (claim_C6 demoEls2 3 1 20 0 (by decide) (by decide)).2⟩

/-- On a node list whose interior/exterior-typed nodes are all fixed,
the boundary-condition pass agrees with the variant whose Robin branch
is removed: the Robin branch is never taken. -/
theorem applyBC_eq_noRobin_of_typed_fixed (ns : List MeshNode)
    (h : ∀ node ∈ ns,
      (node.boundaryType = some BoundaryType.interior ∨
       node.boundaryType = some BoundaryType.exterior) → node.fixed = true)
    (KF : SparseK × List ℚ) :
    applyBoundaryConditions ns KF = applyBoundaryConditionsNoRobin ns KF := by
  unfold applyBoundaryConditions applyBoundaryConditionsNoRobin
  refine List.foldl_ext _ _ _ (fun acc i hi => ?_)
  rw [List.mem_range] at hi
  have hmem : ns.getD i nodeDefault ∈ ns := by
    rw [List.getD_eq_getElem ns nodeDefault hi]
    exact List.getElem_mem hi
  have hnode := h (ns.getD i nodeDefault) hmem
  simp only [applyBCStep, applyBCStepNoRobin]
  by_cases hf : (ns.getD i nodeDefault).fixed = true
  · rw [if_pos hf, if_pos hf]
  · rw [if_neg hf, if_neg hf]
    cases hbt : (ns.getD i nodeDefault).boundaryType with
    | none =>
        by_cases hbd : (ns.getD i nodeDefault).isBoundary = true
        · rw [if_pos hbd]
        · rw [if_neg hbd]
    | some bt =>
        cases bt with
        | interior => exact absurd (hnode (Or.inl hbt)) hf
        | exterior => exact absurd (hnode (Or.inr hbt)) hf
        | adiabatic =>
            by_cases hbd : (ns.getD i nodeDefault).isBoundary = true
            · rw [if_pos hbd]
            · rw [if_neg hbd]

/-- C10: in every mesh produced by `generateMesh`, every node whose
`boundaryType` is `interior` or `exterior` also has `fixed = true`
(those types are only assigned together with the Dirichlet flag on the
left/right edges); consequently the Robin/convective branch of the
solver's boundary-condition pass — which requires a non-fixed boundary
node of those types — is never executed on such meshes: the pass equals
its Robin-free variant for every assembled system. -/
theorem claim_C10 (els : List DrawingElement) (m a iT eT : ℚ) :
    (∀ node ∈ (generateMesh els m a iT eT).nodes,
      (node.boundaryType = some BoundaryType.interior ∨
       node.boundaryType = some BoundaryType.exterior) → node.fixed = true) ∧
    (∀ KF : SparseK × List ℚ,
      applyBoundaryConditions (generateMesh els m a iT eT).nodes KF =
      applyBoundaryConditionsNoRobin (generateMesh els m a iT eT).nodes KF) := by
  have hmain : ∀ node ∈ (generateMesh els m a iT eT).nodes,
      (node.boundaryType = some BoundaryType.interior ∨
       node.boundaryType = some BoundaryType.exterior) → node.fixed = true := by
    cases hb : boundsOf els with
    | none => simp [generateMesh, hb]
    | some b =>
        simp only [generateMesh, hb]
        intro node hnode htype
        rcases refineNodes_mem (expandBounds b m) (m * 5) (m * a)
          (findJunctions els) (gridFromBounds (expandBounds b m) m iT eT)
          node hnode with h | h
        · exact (gridFromBounds_props (expandBounds b m) m iT eT node h).2 htype
        · rw [h.2.2] at htype
          rcases htype with ht | ht <;> exact absurd ht (by simp)
  exact ⟨hmain, fun KF => applyBC_eq_noRobin_of_typed_fixed _ hmain KF⟩

/-- Witness for C10 at a concrete input: node 10 of the generated grid
is an interior-typed boundary node and the theorem yields its Dirichlet
flag. -/
theorem claim_C10_witness :
    ((generateMesh demoEls 3 1 20 0).nodes.getD 10 nodeDefault).boundaryType =
      some BoundaryType.interior ∧
    ((generateMesh demoEls 3 1 20 0).nodes.getD 10 nodeDefault).fixed = true :=
  ⟨by decide,
   (claim_C10 demoEls 3 1 20 0).1 _ (by decide) (Or.inl (by decide))⟩

/-- A Gauss-Seidel sweep keeps the length of the temperature vector. -/
theorem length_gsSweep (ns : List MeshNode) (K : SparseK) (F T : List ℚ) :
    (gsSweep ns K F T).1.length = T.length := by
  unfold gsSweep
  refine foldl_invariant (fun acc : List ℚ × ℚ => acc.1.length = T.length) _ _ _ rfl ?_
  intro acc i hacc
  unfold gsUpdate
  split
  · exact hacc
  · simpa [List.length_set] using hacc

/-- The Gauss-Seidel loop keeps the length of the temperature vector. -/
theorem length_gsLoop (ns : List MeshNode) (K : SparseK) (F : List ℚ) :
    ∀ (fuel : ℕ) (tol err : ℚ) (T : List ℚ),
      (gsLoop ns K F fuel tol err T).length = T.length := by
  intro fuel
  induction fuel with
  | zero => intro tol err T; rfl
  | succ f ih =>
      intro tol err T
      simp only [gsLoop]
      split
      · rw [ih]; exact length_gsSweep ns K F T
      · rfl

/-- The solved temperature vector has one entry per node. -/
theorem length_solvedTemps (mesh : Mesh) (it : ℕ) (tol : ℚ) :
    (solvedTemps mesh it tol).length = mesh.nodes.length := by
  unfold solvedTemps
  rw [length_gsLoop]
  exact List.length_map _ _

/-- Writing a temperature vector back into a node list only changes the
`temperature` field of each node, position by position. -/
theorem forall₂_zipWith_update (l : List MeshNode) :
    ∀ T : List ℚ, l.length = T.length →
    List.Forall₂ (fun old new => new.id = old.id ∧ new.x = old.x ∧
      new.y = old.y ∧ new.fixed = old.fixed ∧
      new.isBoundary = old.isBoundary ∧ new.boundaryType = old.boundaryType)
      l (List.zipWith (fun node t => { node with temperature := t }) l T) := by
  induction l with
  | nil => intro T h; exact List.Forall₂.nil
  | cons a l ih =>
      intro T h
      cases T with
      | nil => simp at h
      | cons t T =>
          simp only [List.zipWith_cons_cons]
          exact List.Forall₂.cons ⟨rfl, rfl, rfl, rfl, rfl, rfl⟩
            (ih T (by simpa using h))

/-- C9: `solveHeatTransfer` changes only node temperatures: the element
list is returned unchanged and every node keeps its `id`, `x`, `y`,
`fixed`, `isBoundary` and `boundaryType`, in the same list order (the
`Forall₂` pairs each input node with the output node at its position). -/
theorem claim_C9 (mesh : Mesh) (maxIterations : ℕ) (tolerance : ℚ) :
    (solveHeatTransfer mesh maxIterations tolerance).elements = mesh.elements ∧
    List.Forall₂ (fun old new => new.id = old.id ∧ new.x = old.x ∧
      new.y = old.y ∧ new.fixed = old.fixed ∧
      new.isBoundary = old.isBoundary ∧ new.boundaryType = old.boundaryType)
      mesh.nodes (solveHeatTransfer mesh maxIterations tolerance).nodes := by
  refine ⟨rfl, ?_⟩
  have h : (solveHeatTransfer mesh maxIterations tolerance).nodes =
      solvedNodeList mesh maxIterations tolerance := rfl
  rw [h]
  unfold solvedNodeList
  exact forall₂_zipWith_update mesh.nodes _
    (length_solvedTemps mesh maxIterations tolerance).symm

/-- The fRsi surface scan is a fold of `min` over the temperatures of
the interior-boundary nodes. -/
theorem foldl_min_filter (l : List MeshNode) (init : ℚ) :
    l.foldl (fun acc node =>
      if node.isBoundary = true ∧ node.boundaryType = some BoundaryType.interior then
        min acc node.temperature
      else acc) init =
    ((l.filter (fun n => n.isBoundary &&
        decide (n.boundaryType = some BoundaryType.interior))).map
      (fun n => n.temperature)).foldl min init := by
  induction l generalizing init with
  | nil => rfl
  | cons a l ih =>
      cases hp : (a.isBoundary && decide (a.boundaryType = some BoundaryType.interior)) with
      | true =>
          have h : a.isBoundary = true ∧ a.boundaryType = some BoundaryType.interior := by
            simpa using hp
          have hf : List.filter (fun n => n.isBoundary &&
              decide (n.boundaryType = some BoundaryType.interior)) (a :: l) =
              a :: List.filter (fun n => n.isBoundary &&
                decide (n.boundaryType = some BoundaryType.interior)) l :=
            List.filter_cons_of_pos hp
          rw [List.foldl_cons, if_pos h, hf, List.map_cons, List.foldl_cons]
          exact ih _
      | false =>
          have h : ¬(a.isBoundary = true ∧ a.boundaryType = some BoundaryType.interior) := by
            intro hab
            have htrue : (a.isBoundary &&
                decide (a.boundaryType = some BoundaryType.interior)) = true := by
              simp [hab.1, hab.2]
            rw [hp] at htrue
            cases htrue
          have hf : List.filter (fun n => n.isBoundary &&
              decide (n.boundaryType = some BoundaryType.interior)) (a :: l) =
              List.filter (fun n => n.isBoundary &&
                decide (n.boundaryType = some BoundaryType.interior)) l :=
            List.filter_cons_of_neg (by simp [hp])
          rw [List.foldl_cons, if_neg h, hf]
          exact ih _

/-- A fold of `min` over elements all at least `c` stays at `c`. -/
theorem foldl_min_const (c : ℚ) (l : List ℚ) (h : ∀ x ∈ l, c ≤ x) :
    l.foldl min c = c := by
  induction l with
  | nil => rfl
  | cons a l ih =>
      rw [List.foldl_cons, min_eq_left (h a (List.mem_cons_self a l))]
      exact ih (fun x hx => h x (List.mem_cons_of_mem a hx))

/-- A fold of `min` computes the minimum of the list when the minimum
also bounds the initial value. -/
theorem foldl_min_eq (l : List ℚ) (m : ℚ) (hmem : m ∈ l)
    (hle : ∀ x ∈ l, m ≤ x) :
    ∀ init : ℚ, m ≤ init → l.foldl min init = m := by
  induction l with
  | nil => cases hmem
  | cons a l ih =>
      intro init hinit
      rw [List.foldl_cons]
      rcases List.mem_cons.mp hmem with rfl | hm
      · rw [min_eq_right hinit]
        exact foldl_min_const m l (fun x hx => hle x (List.mem_cons_of_mem m hx))
      · exact ih hm (fun x hx => hle x (List.mem_cons_of_mem a hx)) _
          (le_min hinit (hle a (List.mem_cons_self a l)))

/-- An initial value only grows under a fold of `max`. -/
theorem le_foldl_max_init (l : List ℚ) : ∀ init : ℚ, init ≤ l.foldl max init := by
  induction l with
  | nil => exact fun init => le_refl init
  | cons a l ih =>
      intro init
      rw [List.foldl_cons]
      exact le_trans (le_max_left init a) (ih (max init a))

/-- Every member of a list bounds from below its fold of `max`. -/
theorem le_foldl_max_mem (l : List ℚ) : ∀ (init x : ℚ), x ∈ l →
    x ≤ l.foldl max init := by
  induction l with
  | nil => intro init x hx; cases hx
  | cons a l ih =>
      intro init x hx
      rw [List.foldl_cons]
      rcases List.mem_cons.mp hx with rfl | hm
      · exact le_trans (le_max_right init x) (le_foldl_max_init l (max init x))
      · exact ih (max init a) x hm

/-- Every member of a list is at most its `Math.max`. -/
theorem le_jsMax (l : List ℚ) (x : ℚ) (hx : x ∈ l) : x ≤ jsMax l := by
  cases l with
  | nil => cases hx
  | cons a rest =>
      rcases List.mem_cons.mp hx with rfl | hm
      · exact le_foldl_max_init rest x
      · exact le_foldl_max_mem rest a x hm

/-- The solved node list carries exactly the solved temperature vector. -/
theorem map_temp_zipWith (l : List MeshNode) :
    ∀ T : List ℚ, T.length = l.length →
    (List.zipWith (fun node t => { node with temperature := t }) l T).map
      (fun n => n.temperature) = T := by
  induction l with
  | nil =>
      intro T h
      rw [List.length_nil, List.length_eq_zero] at h
      subst h
      rfl
  | cons a l ih =>
      intro T h
      cases T with
      | nil => simp at h
      | cons t T =>
          simp only [List.zipWith_cons_cons, List.map_cons]
          rw [ih T (by simpa using h)]

/-- The temperatures of the returned nodes are the solved vector. -/
theorem map_temp_solvedNodeList (mesh : Mesh) (it : ℕ) (tol : ℚ) :
    (solvedNodeList mesh it tol).map (fun n => n.temperature) =
      solvedTemps mesh it tol := by
  unfold solvedNodeList
  exact map_temp_zipWith mesh.nodes _ (length_solvedTemps mesh it tol)

/-- C7: for every solved mesh with `maxTemperature > minTemperature`,
the computed `fRsiValue` equals `(m - minTemperature) / (maxTemperature -
minTemperature)` where `m` is the minimum temperature among the solved
interior-boundary nodes (characterised as a member of their temperature
list that bounds it from below) and `minTemperature`/`maxTemperature`
are the extrema of the solved field. -/
theorem claim_C7 (mesh : Mesh) (maxIterations : ℕ) (tolerance m : ℚ)
    (hmem : m ∈ ((solveHeatTransfer mesh maxIterations tolerance).nodes.filter
      (fun n => n.isBoundary &&
        decide (n.boundaryType = some BoundaryType.interior))).map
      (fun n => n.temperature))
    (hmin : ∀ t ∈ ((solveHeatTransfer mesh maxIterations tolerance).nodes.filter
      (fun n => n.isBoundary &&
        decide (n.boundaryType = some BoundaryType.interior))).map
      (fun n => n.temperature), m ≤ t)
    (hlt : (solveHeatTransfer mesh maxIterations tolerance).minTemperature <
      (solveHeatTransfer mesh maxIterations tolerance).maxTemperature) :
    (solveHeatTransfer mesh maxIterations tolerance).fRsiValue =
      (m - (solveHeatTransfer mesh maxIterations tolerance).minTemperature) /
      ((solveHeatTransfer mesh maxIterations tolerance).maxTemperature -
       (solveHeatTransfer mesh maxIterations tolerance).minTemperature) := by
  have hnodes : (solveHeatTransfer mesh maxIterations tolerance).nodes =
      solvedNodeList mesh maxIterations tolerance := rfl
  have hfr : (solveHeatTransfer mesh maxIterations tolerance).fRsiValue =
      calculateFRsiValue
        { nodes := solvedNodeList mesh maxIterations tolerance,
          elements := mesh.elements }
        (jsMin (solvedTemps mesh maxIterations tolerance))
        (jsMax (solvedTemps mesh maxIterations tolerance)) := rfl
  have hminT : (solveHeatTransfer mesh maxIterations tolerance).minTemperature =
      jsMin (solvedTemps mesh maxIterations tolerance) := rfl
  have hmaxT : (solveHeatTransfer mesh maxIterations tolerance).maxTemperature =
      jsMax (solvedTemps mesh maxIterations tolerance) := rfl
  rw [hnodes] at hmem hmin
  rw [hfr, hminT, hmaxT]
  simp only [calculateFRsiValue]
  rw [foldl_min_filter]
  have hm_le_max : m ≤ jsMax (solvedTemps mesh maxIterations tolerance) := by
    have hsub : m ∈ (solvedNodeList mesh maxIterations tolerance).map
        (fun n => n.temperature) := by
      obtain ⟨node, hn, hmn⟩ := List.mem_map.mp hmem
      exact List.mem_map.mpr ⟨node, List.mem_of_mem_filter hn, hmn⟩
    rw [map_temp_solvedNodeList] at hsub
    exact le_jsMax _ m hsub
  rw [foldl_min_eq _ m hmem hmin _ hm_le_max]

/-- Witness for C7 on `mesh3`, whose solved field is `[0, 20, 0]` with
one interior-boundary node at `20 °C`. -/
theorem claim_C7_witness :
    ((20:ℚ) ∈ ((solveHeatTransfer mesh3 2 (1/1000000)).nodes.filter
      (fun n => n.isBoundary &&
        decide (n.boundaryType = some BoundaryType.interior))).map
      (fun n => n.temperature)) ∧
    (∀ t ∈ ((solveHeatTransfer mesh3 2 (1/1000000)).nodes.filter
      (fun n => n.isBoundary &&
        decide (n.boundaryType = some BoundaryType.interior))).map
      (fun n => n.temperature), (20:ℚ) ≤ t) ∧
    (solveHeatTransfer mesh3 2 (1/1000000)).minTemperature <
      (solveHeatTransfer mesh3 2 (1/1000000)).maxTemperature ∧
    (solveHeatTransfer mesh3 2 (1/1000000)).fRsiValue =
      ((20:ℚ) - (solveHeatTransfer mesh3 2 (1/1000000)).minTemperature) /
      ((solveHeatTransfer mesh3 2 (1/1000000)).maxTemperature -
       (solveHeatTransfer mesh3 2 (1/1000000)).minTemperature) :=
  ⟨by decide, by decide, by decide,
   claim_C7 mesh3 2 (1/1000000) 20 (by decide) (by decide) (by decide)⟩

/-- C1 (evaluation at the failing input): on `degMesh` — one non-fixed
node, starting at `7 °C`, referenced by no element — the assembled
system has no diagonal entry `K[0,0]` at all, yet the Gauss-Seidel
update runs, performs the division and overwrites the node's
temperature (the JS division `sum / undefined` yields `NaN`, modelled
here as `sum / 0 = 0`), and `solveHeatTransfer` returns a full result
record: the source raises no `SolverDivergence`, it has no error
channel. -/
theorem claim_C1_eval :
    lookupK (assembledSystem degMesh).1 0 0 = none ∧
    degMesh.nodes.map (fun n => n.temperature) = [7] ∧
    gsUpdate degMesh.nodes (assembledSystem degMesh).1
      (assembledSystem degMesh).2 ([7], 0) 0 = ([0], 7) ∧
    (solveHeatTransfer degMesh 5 (1/1000000)).nodes.map
      (fun n => n.temperature) = [0] ∧
    (solveHeatTransfer degMesh 5 (1/1000000)).isotherms.length = 9 := by
  refine ⟨by decide, by decide, by decide, by decide, by decide⟩

/-- C2 (evaluation at the failing input): on a single non-fixed
interior-boundary Robin node, the source adds
`INTERIOR_HEAT_TRANSFER_COEFFICIENT * 20 = 154` to the load vector — a
hardcoded reference temperature — while the spec-modelled variant with a
configured interior design temperature of `25 °C` yields `192.5`; the two
load vectors differ. -/
theorem claim_C2_eval :
    (applyBoundaryConditions robinNodes (emptyK, [0])).2 = [154] ∧
    (applyBoundaryConditionsSpecRobin 25 0 robinNodes (emptyK, [0])).2 = [385/2] ∧
    (applyBoundaryConditions robinNodes (emptyK, [0])).2 ≠
      (applyBoundaryConditionsSpecRobin 25 0 robinNodes (emptyK, [0])).2 := by
  refine ⟨by decide, by decide, by decide⟩

/-- C3 (evaluation at the failing input): for the empty region list,
`generateMesh` raises no `InvalidGeometry` error — it returns the empty
mesh — and `solveHeatTransfer` happily consumes that empty mesh and
returns a full result record (with nine isotherm levels computed from
the degenerate extrema). -/
theorem claim_C3_eval :
    generateMesh [] 3 (3/10) 20 0 = { nodes := [], elements := [] } ∧
    (solveHeatTransfer (generateMesh [] 3 (3/10) 20 0) 1000 (1/1000000)).nodes = [] ∧
    (solveHeatTransfer (generateMesh [] 3 (3/10) 20 0) 1000 (1/1000000)).isotherms.length = 9 := by
  refine ⟨by decide, by decide, by decide⟩

/-- C8 (evaluation at the failing input): on `mesh4` with
`maxIterations = 1`, the single performed sweep still changes a
temperature by `1540/87 ≈ 17.7`, far above the tolerance `10⁻⁶` — the
iteration cap is reached before convergence — yet `solveHeatTransfer`
returns the best-effort field of that sweep as a plain result record;
the record type (`ThermalSimulationResult`, part_002 lines 30-39) has no
`converged` field, so the non-convergence is not observable. -/
theorem claim_C8_eval :
    (gsSweep mesh4.nodes (assembledSystem mesh4).1 (assembledSystem mesh4).2
      (mesh4.nodes.map (fun n => n.temperature))).2 > 1/1000000 ∧
    (solveHeatTransfer mesh4 1 (1/1000000)).nodes.map (fun n => n.temperature) =
      (gsSweep mesh4.nodes (assembledSystem mesh4).1 (assembledSystem mesh4).2
        (mesh4.nodes.map (fun n => n.temperature))).1 ∧
    (solveHeatTransfer mesh4 1 (1/1000000)).nodes.map (fun n => n.temperature) =
      [0, 20, 1540/87, 770/87] := by
  set_option maxRecDepth 4000 in
  refine ⟨by decide, by decide, by decide⟩
